import Mathlib

/-!
Verification of the commutation-DAG builder and pairwise-commutation oracle of
`pennylane/transforms/get_dag_commutation.py`.

The embedding below mirrors the Python module:
* operation parameters are exact fractions in units of pi (a value `⟨n, d⟩ :
  Frac` stands for the angle `(n / d) * pi`), so that the module's
  `np.mod(x, 2 * np.pi)` tests become exact floor-mod tests with modulus `2`;
* Python dictionaries (`position`, `commutation_map`) become association
  lists, with `KeyError` modelled through `Except`;
* `is_commuting` becomes `isCommuting : Op -> Op -> Except String Bool`,
  where `Except.error` models a raised exception;
* the incremental DAG edge construction (`CommutationDAG._update_edges` with
  its `reachable` flags and `_pred_update` k-way sorted merges) becomes a
  fold over the previously inserted node ids in reverse insertion order.
-/

/-- An exact fraction `num / den`, used to represent operation parameters in
units of pi.  Kept unnormalised; `Frac.beq` compares by cross multiplication.
The Python module computes with floats, but every test it performs on
parameters (`np.mod` against `2 * np.pi`, `np.pi / 2`, ...) is exact modular
arithmetic on multiples of pi, which this type models exactly. -/
structure Frac where
  num : Int
  den : Int
deriving DecidableEq, Repr

/-- Fraction addition. -/
def Frac.add (a b : Frac) : Frac := ⟨a.num * b.den + b.num * a.den, a.den * b.den⟩

/-- Fraction subtraction. -/
def Frac.sub (a b : Frac) : Frac := ⟨a.num * b.den - b.num * a.den, a.den * b.den⟩

/-- Fraction multiplication. -/
def Frac.mul (a b : Frac) : Frac := ⟨a.num * b.num, a.den * b.den⟩

/-- Fraction division. -/
def Frac.div (a b : Frac) : Frac := ⟨a.num * b.den, a.den * b.num⟩

/-- Fraction equality by cross multiplication. -/
def Frac.beq (a b : Frac) : Bool := a.num * b.den == b.num * a.den

instance : BEq Frac := ⟨Frac.beq⟩

/-- Rational value of a fraction (for stating sanity lemmas about the
model). -/
def Frac.toRat (a : Frac) : Rat := (a.num : Rat) / (a.den : Rat)

/-- Floor of a fraction (the denominator is first made non-negative so that
`Int.fdiv` is a genuine floor). -/
def Frac.floor (a : Frac) : Int :=
  if a.den < 0 then Int.fdiv (-a.num) (-a.den) else Int.fdiv a.num a.den

/-- Floor-style modulus, `pmod x m = x - m * floor (x / m)`.  This is exactly
`np.mod(x, m)` (NumPy follows Python's floored modulo, also for a negative
modulus `m`). -/
def pmod (x m : Frac) : Frac := x.sub (m.mul ⟨Frac.floor (x.div m), 1⟩)

/-- The constant 0 (i.e. the angle 0). -/
def fZero : Frac := ⟨0, 1⟩

/-- The constant 1/2 (i.e. the angle pi / 2). -/
def fHalf : Frac := ⟨1, 2⟩

/-- The constant -1/2 (i.e. the angle -pi / 2). -/
def fNegHalf : Frac := ⟨-1, 2⟩

/-- The constant 1 (i.e. the angle pi). -/
def fOne : Frac := ⟨1, 1⟩

/-- The constant 2 (i.e. the angle 2 * pi, the modulus of all the `np.mod`
tests). -/
def fTwo : Frac := ⟨2, 1⟩

/-- The constant -2 (i.e. the angle -2 * pi). -/
def fNegTwo : Frac := ⟨-2, 1⟩

/-- An operation descriptor, as consumed by `is_commuting`.  `name` is the
PennyLane operation name; `data` its parameter list in units of pi; `wires`,
`control_wires` and `target_wires` are the wire labels (already remapped to
integers by the `get_dag_commutation` wrapper).  `is_controlled` models the
fork's `Operation.is_controlled` attribute, modelled from the spec (the
attribute is not part of the excerpted sources): it holds the name of the
underlying target kind for a controlled operation and is empty (Python falsy)
otherwise.  `is_cv` and `is_channel` model
`isinstance(op, qml.operation.CVOperation)` and
`isinstance(op, qml.operation.Channel)`. -/
structure Op where
  name : String
  wires : List Nat
  data : List Frac := []
  control_wires : List Nat := []
  target_wires : List Nat := []
  is_controlled : String := ""
  is_cv : Bool := false
  is_channel : Bool := false
deriving DecidableEq, Repr

instance : Inhabited Op := ⟨{ name := "", wires := [] }⟩

/-- The `position` ordered dictionary: place of each gate in the rows of
`commutation_map`. -/
def position : List (String × Nat) :=
  [("Hadamard", 0), ("PauliX", 1), ("PauliY", 2), ("PauliZ", 3), ("SWAP", 4),
   ("ctrl", 5), ("S", 6), ("T", 7), ("SX", 8), ("ISWAP", 9), ("SISWAP", 10),
   ("Barrier", 11), ("WireCut", 12), ("RX", 13), ("RY", 14), ("RZ", 15),
   ("PhaseShift", 16), ("Rot", 17), ("MultiRZ", 18), ("Identity", 19),
   ("U1", 20), ("U2", 21), ("U3", 22), ("IsingXX", 23), ("IsingYY", 24),
   ("IsingZZ", 25), ("QubitStateVector", 26), ("BasisState", 27)]

/-- The `commutation_map` ordered dictionary: `1` represents commutation and
`0` non commutation, positions in each row follow `position`. -/
def commutation_map : List (String × List Nat) :=
  [("Hadamard", [1,0,0,0,0,0,0,0,0,0,0,0,0,0,0,0,0,0,0,1,0,0,0,0,0,0,0,0]),
   ("PauliX", [0,1,0,0,0,0,0,0,1,0,0,0,0,1,0,0,0,0,0,1,0,0,0,1,0,0,0,0]),
   ("PauliY", [0,0,1,0,0,0,0,0,0,0,0,0,0,0,1,0,0,0,0,1,0,0,0,0,1,0,0,0]),
   ("PauliZ", [0,0,0,1,0,1,1,1,0,0,0,0,0,0,0,1,1,0,1,1,1,0,0,0,0,1,0,0]),
   ("SWAP", [0,0,0,0,1,0,0,0,0,1,1,0,0,0,0,0,0,0,0,1,0,0,0,0,0,0,0,0]),
   ("ctrl", [0,0,0,1,0,1,1,1,0,0,0,0,0,0,0,1,1,0,1,1,1,0,0,0,0,1,0,0]),
   ("S", [0,0,0,1,0,1,1,1,0,0,0,0,0,0,0,1,1,0,1,1,1,0,0,0,0,1,0,0]),
   ("T", [0,0,0,1,0,1,1,1,0,0,0,0,0,0,0,1,1,0,1,1,1,0,0,0,0,1,0,0]),
   ("SX", [0,1,0,0,0,0,0,0,1,0,0,0,0,0,0,1,1,0,1,1,1,0,0,0,0,1,0,0]),
   ("ISWAP", [0,0,0,0,1,0,0,0,0,1,1,0,0,0,0,0,0,0,0,1,0,0,0,0,0,0,0,0]),
   ("SISWAP", [0,0,0,0,1,0,0,0,0,1,1,0,0,0,0,0,0,0,0,1,0,0,0,0,0,0,0,0]),
   ("Barrier", [0,0,0,0,0,0,0,0,0,0,0,0,0,0,0,0,0,0,0,0,0,0,0,0,0,0,0,0]),
   ("WireCut", [0,0,0,0,0,0,0,0,0,0,0,0,0,0,0,0,0,0,0,0,0,0,0,0,0,0,0,0]),
   ("RX", [0,1,0,0,0,0,0,0,1,0,0,0,0,1,0,0,0,0,0,1,0,0,0,1,0,0,0,0]),
   ("RY", [0,0,1,0,0,0,0,0,0,0,0,0,0,0,1,0,0,0,0,1,0,0,0,0,1,0,0,0]),
   ("RZ", [0,0,0,1,0,1,1,1,0,0,0,0,0,0,0,1,1,0,1,1,1,0,0,0,0,1,0,0]),
   ("PhaseShift", [0,0,0,1,0,1,1,1,0,0,0,0,0,0,0,1,1,0,1,1,1,0,0,0,0,1,0,0]),
   ("Rot", [0,0,0,0,0,0,0,0,0,0,0,0,0,0,0,0,0,0,0,1,0,0,0,0,0,0,0,0]),
   ("MultiRZ", [0,0,0,1,0,1,1,1,0,0,0,0,0,0,0,1,1,0,1,1,1,0,0,0,0,1,0,0]),
   ("Identity", [1,1,1,1,1,1,1,1,1,1,1,0,0,1,1,1,1,1,1,1,1,1,1,1,1,1,0,0]),
   ("U1", [0,0,0,1,0,1,1,1,0,0,0,0,0,0,0,1,1,0,1,1,1,0,0,0,0,1,0,0]),
   ("U2", [0,0,0,0,0,0,0,0,0,0,0,0,0,0,0,0,0,0,0,1,0,0,0,0,0,0,0,0]),
   ("U3", [0,0,0,0,0,0,0,0,0,0,0,0,0,0,0,0,0,0,0,1,0,0,0,0,0,0,0,0]),
   ("IsingXX", [0,1,0,0,0,0,0,0,1,0,0,0,0,1,0,0,0,0,0,1,0,0,0,1,0,0,0,0]),
   ("IsingYY", [0,0,1,0,0,0,0,0,0,0,0,0,0,0,1,0,0,0,0,1,0,0,0,0,1,0,0,0]),
   ("IsingZZ", [0,0,0,1,0,1,1,1,0,0,0,0,0,0,0,1,1,0,1,1,1,0,0,0,0,1,0,0]),
   ("QubitStateVector", [0,0,0,0,0,0,0,0,0,0,0,0,0,0,0,0,0,0,0,0,0,0,0,0,0,0,0,0]),
   ("BasisState", [0,0,0,0,0,0,0,0,0,0,0,0,0,0,0,0,0,0,0,0,0,0,0,0,0,0,0,0])]

/-- `bool(commutation_map[name1][position[name2]])`, with Python `KeyError`
(missing dictionary key) and `IndexError` (row shorter than the index)
modelled as `Except.error`.  The row lookup is evaluated first, as in the
Python subscript expression. -/
def commutationEntry (name1 name2 : String) : Except String Bool :=
  match commutation_map.lookup name1 with
  | none => Except.error ("KeyError: " ++ name1)
  | some row =>
    match position.lookup name2 with
    | none => Except.error ("KeyError: " ++ name2)
    | some idx =>
      match row.get? idx with
      | none => Except.error "IndexError: list index out of range"
      | some v => Except.ok (v != 0)

/-- Python `bool(A) and bool(B)` over two table lookups: `A` is evaluated
first (propagating its exception), and `B` is only evaluated when `A` is
truthy. -/
def andEntry (a b : Except String Bool) : Except String Bool :=
  match a with
  | Except.ok true => b
  | Except.ok false => Except.ok false
  | Except.error e => Except.error e

/-- `intersection(wires1, wires2)`: true iff the two wire lists are not
disjoint (`len(qml.wires.Wires.shared_wires([wires1, wires2])) != 0`). -/
def intersection (wires1 wires2 : List Nat) : Bool :=
  wires1.any (fun w => wires2.contains w)

/-- `qml.RX(theta, wires)` as produced by the simplification helpers. -/
def mkRX (theta : Frac) (w : List Nat) : Op := { name := "RX", wires := w, data := [theta] }

/-- `qml.RY(theta, wires)` as produced by the simplification helpers. -/
def mkRY (theta : Frac) (w : List Nat) : Op := { name := "RY", wires := w, data := [theta] }

/-- `qml.RZ(theta, wires)` as produced by the simplification helpers. -/
def mkRZ (theta : Frac) (w : List Nat) : Op := { name := "RZ", wires := w, data := [theta] }

/-- `simplify_rotation`: rewrite a general `Rot(phi, theta, omega)` as a pure
RX / RY / RZ rotation or a Hadamard when its parameters satisfy the module's
modular identities.  Angles are in units of pi, so `np.pi / 2` is `fHalf`,
`np.pi` is `fOne`, and `2 * np.pi` is `fTwo`. -/
def simplify_rotation (rot : Op) : Op :=
  let d0 := rot.data.getD 0 fZero
  let d1 := rot.data.getD 1 fZero
  let d2 := rot.data.getD 2 fZero
  if pmod d0 fTwo == fHalf && pmod d2 fNegTwo == fNegHalf then
    mkRX d1 rot.wires
  else if pmod d0 fTwo == fZero && pmod d2 fTwo == fZero then
    mkRY d1 rot.wires
  else if pmod d1 fTwo == fZero then
    mkRZ (d0.add d2) rot.wires
  else if pmod d0 fTwo == fOne && pmod d1 fTwo == fHalf && pmod d2 fTwo == fZero then
    { name := "Hadamard", wires := rot.wires }
  else rot

/-- `simplify_controlled_rotation`: the controlled counterpart of
`simplify_rotation`.  The produced `qml.CRX`/`qml.CRY`/`qml.CRZ` keep the
original wires; the controlled Hadamard produced by
`qml.ctrl(qml.Hadamard, control=crot.control_wires)(wires=crot.target_wires)`
is the fork's `Controlled` wrapper (`pennylane/ops/math/control.py`), whose
name is `C(Hadamard)` and whose wires are `base.wires + control_wires`. -/
def simplify_controlled_rotation (crot : Op) : Op :=
  let d0 := crot.data.getD 0 fZero
  let d1 := crot.data.getD 1 fZero
  let d2 := crot.data.getD 2 fZero
  if pmod d0 fTwo == fHalf && pmod d2 fNegTwo == fNegHalf then
    { name := "CRX", wires := crot.wires, data := [d1],
      control_wires := crot.control_wires, target_wires := crot.target_wires,
      is_controlled := "RX" }
  else if pmod d0 fTwo == fZero && pmod d2 fTwo == fZero then
    { name := "CRY", wires := crot.wires, data := [d1],
      control_wires := crot.control_wires, target_wires := crot.target_wires,
      is_controlled := "RY" }
  else if pmod d1 fTwo == fZero then
    { name := "CRZ", wires := crot.wires, data := [d0.add d2],
      control_wires := crot.control_wires, target_wires := crot.target_wires,
      is_controlled := "RZ" }
  else if pmod d0 fTwo == fOne && pmod d1 fTwo == fHalf && pmod d2 fTwo == fZero then
    { name := "C(Hadamard)", wires := crot.target_wires ++ crot.control_wires,
      control_wires := crot.control_wires, target_wires := crot.target_wires,
      is_controlled := "Hadamard" }
  else crot

/-- `simplify_u2`: rewrite a `U2(phi, delta)` as an RX or RY rotation when
possible.  `np.mod(u2.data[1], np.pi / 2)` has modulus `fHalf` in units of
pi. -/
def simplify_u2 (u2 : Op) : Op :=
  let d0 := u2.data.getD 0 fZero
  let d1 := u2.data.getD 1 fZero
  if pmod d1 fTwo == fZero && pmod (d0.add d1) fTwo == fZero then
    mkRY fHalf u2.wires
  else if pmod d1 fHalf == fZero && pmod (d0.add d1) fTwo == fZero then
    mkRX d1 u2.wires
  else u2

/-- `simplify_u3`: rewrite a `U3(theta, phi, delta)` as an RX, RY or RZ
rotation when possible. -/
def simplify_u3 (u3 : Op) : Op :=
  let d0 := u3.data.getD 0 fZero
  let d1 := u3.data.getD 1 fZero
  let d2 := u3.data.getD 2 fZero
  if pmod d2 fTwo == fZero && pmod d1 fTwo == fZero && !(pmod d0 fTwo == fZero) then
    mkRZ d0 u3.wires
  else if pmod d2 fTwo == fHalf && pmod (d1.add d1) fTwo == fZero
      && !(pmod d1 fTwo == fZero) then
    mkRX d1 u3.wires
  else if pmod d2 fTwo == fZero && !(pmod d1 fTwo == fZero)
      && pmod (d1.add d1) fTwo == fZero then
    mkRY d0 u3.wires
  else u3

/-- `simplify`: dispatch on the operation name (the function is only invoked
by `is_commuting` under the guard `name in ["U2", "U3", "Rot", "CRot"]`; on
any other name the Python function falls through, which never happens under
the guard). -/
def simplify (operation : Op) : Op :=
  if operation.name == "Rot" then simplify_rotation operation
  else if operation.name == "U2" then simplify_u2 operation
  else if operation.name == "U3" then simplify_u3 operation
  else if operation.name == "CRot" then simplify_controlled_rotation operation
  else operation

/-- The guarded call sites `if operation.name in ["U2", "U3", "Rot", "CRot"]:
operation = simplify(operation)` in `is_commuting`. -/
def maybeSimplify (operation : Op) : Op :=
  if operation.name == "U2" || operation.name == "U3" || operation.name == "Rot"
      || operation.name == "CRot" then
    simplify operation
  else operation

/-- The module's `not_supported_operations` list.  The source omits the comma
after `"ArbitraryUnitary"`, so Python implicit string concatenation produces
the single fifth element `"ArbitraryUnitaryCommutingEvolution"`: the list
has seven entries, not eight. -/
def not_supported_operations : List String :=
  ["PauliRot",
   "QubitDensityMatrix",
   "CVNeuralNetLayers",
   "ApproxTimeEvolution",
   "ArbitraryUnitary" ++ "CommutingEvolution",
   "DisplacementEmbedding",
   "SqueezingEmbedding"]

/-- The module's `non_commuting_operations` list. -/
def non_commuting_operations : List String :=
  ["ArbitraryStatePreparation", "BasisStatePreparation", "MottonenStatePreparation",
   "QubitCarry", "QubitSum", "SingleExcitation", "SingleExcitationMinus",
   "SingleExcitationPlus", "DoubleExcitation", "DoubleExcitationPlus",
   "DoubleExcitationMinus", "BasicEntanglerLayers", "GateFabric",
   "ParticleConservingU1", "ParticleConservingU2", "RandomLayers",
   "SimplifiedTwoDesign", "StronglyEntanglingLayers", "AllSinglesDoubles",
   "FermionicDoubleExcitation", "FermionicSingleExcitation", "Grover",
   "kUpCCGSD", "Permute", "QFT", "QuantumMonteCarlo", "QuantumPhaseEstimation",
   "UCCSD", "MPS", "TTN", "AmplitudeEmbedding", "AngleEmbedding",
   "BasisEmbedding", "IQPEmbedding", "QAOAEmbedding"]

/-- The guard raising `qml.QuantumFunctionError` for an unsupported operand:
name in `not_supported_operations`, a continuous-variable operation, or a
noise channel. -/
def notSupported (op : Op) : Bool :=
  not_supported_operations.contains op.name || op.is_cv || op.is_channel

/-- The names treated as barrier / no-op markers by the identity-parameter
short-circuit. -/
def barrierNames : List String := ["Barrier", "WireCut"]

/-- The identity-parameter short-circuit test on an (already simplified)
operand: `operation.data` is non-empty, the name is not `"U2"`, and
`np.allclose(np.mod(operation.data, 2 * np.pi), 0)` holds, i.e. every
parameter is congruent to 0 mod 2 pi. -/
def actsAsIdentity (op : Op) : Bool :=
  !op.data.isEmpty && !(op.name == "U2") && op.data.all (fun x => pmod x fTwo == fZero)

/-- Python `np.allcllose` does not exist: evaluating any of the matrix
fallback branches raises `AttributeError` before any matrix is computed
(the callee of a call expression is evaluated before its arguments). -/
def allclloseError : Except String Bool :=
  Except.error "AttributeError: module pennylane.numpy has no attribute allcllose"

/-- Lines 1258-1436 of `is_commuting`: the CRot special cases, the
simplified-rotation pairs, the controlled-operation case split (cases 2-5)
and the final table lookup.  All of this code is unreachable whenever
`operation1.name` is a non-empty string (see the `isCommutingCore` guard
before it), but it is embedded faithfully. -/
def lateCases (operation1 operation2 : Op) : Except String Bool :=
  -- Two simplified CRot
  if operation1.name == "CRot" && operation2.name == "CRot" then
    let control_control := intersection operation1.control_wires operation2.control_wires
    let target_target := intersection operation1.target_wires operation2.target_wires
    if control_control && target_target then allclloseError
    else if control_control && !target_target then Except.ok true
    else if !control_control && target_target then allclloseError
    else Except.ok false
  -- Two simplified rotations
  else if (operation1.name == "U2" || operation1.name == "U3" || operation1.name == "Rot"
        || operation1.name == "CRot")
      && (operation2.name == "U2" || operation2.name == "U3" || operation2.name == "Rot"
        || operation2.name == "CRot") then
    if operation1.name == "CRot" then
      if !(intersection operation1.target_wires operation2.wires) then
        commutationEntry "ctrl" operation2.name
      else allclloseError
    else if operation2.name == "CRot" then
      if !(intersection operation2.target_wires operation1.wires) then
        commutationEntry operation1.name "ctrl"
      else allclloseError
    else allclloseError
  -- Case 2: both operations are controlled
  else if !(operation1.is_controlled == "") && !(operation2.is_controlled == "") then
    let control_control := intersection operation1.control_wires operation2.control_wires
    let target_target := intersection operation1.target_wires operation2.target_wires
    let control_target := intersection operation1.control_wires operation2.target_wires
    let target_control := intersection operation1.target_wires operation2.control_wires
    -- Case 2.1
    if control_control && !target_target && !control_target && !target_control then
      Except.ok true
    -- Case 2.2
    else if !control_control && target_target && !control_target && !target_control then
      commutationEntry operation1.is_controlled operation2.is_controlled
    -- Case 2.3
    else if target_target && control_control && !control_target && !target_control then
      commutationEntry operation1.is_controlled operation2.is_controlled
    -- Case 2.4
    else if control_target && target_control && !target_target then
      andEntry (commutationEntry "ctrl" operation2.is_controlled)
        (commutationEntry operation1.is_controlled "ctrl")
    -- Case 2.5
    else if control_target && !target_control && target_target then
      andEntry (commutationEntry "ctrl" operation2.is_controlled)
        (commutationEntry operation1.is_controlled operation2.is_controlled)
    -- Case 2.6
    else if target_control && !control_target && target_target then
      andEntry (commutationEntry operation1.is_controlled "ctrl")
        (commutationEntry operation1.is_controlled operation2.is_controlled)
    -- Case 2.7
    else if target_control && !control_target && !target_target then
      commutationEntry operation1.is_controlled "ctrl"
    -- Case 2.8
    else if !target_control && control_target && !target_target then
      commutationEntry "ctrl" operation2.is_controlled
    -- Case 2.9
    else if target_control && control_target && target_target then
      andEntry (andEntry (commutationEntry operation1.is_controlled "ctrl")
          (commutationEntry "ctrl" operation2.is_controlled))
        (commutationEntry operation1.is_controlled operation2.is_controlled)
    -- no sub-case matched: fall through to the final table lookup
    else commutationEntry operation1.name operation2.name
  -- Case 3: only operation 1 is controlled
  else if !(operation1.is_controlled == "") then
    let control_target := intersection operation1.control_wires operation2.wires
    let target_target := intersection operation1.target_wires operation2.wires
    -- Case 3.1
    if control_target && target_target then
      andEntry (commutationEntry operation1.is_controlled operation2.name)
        (commutationEntry "ctrl" operation2.name)
    -- Case 3.2
    else if control_target && !target_target then
      commutationEntry "ctrl" operation2.name
    -- Case 3.3
    else if !control_target && target_target then
      commutationEntry operation1.is_controlled operation2.name
    else commutationEntry operation1.name operation2.name
  -- Case 4: only operation 2 is controlled
  else if !(operation2.is_controlled == "") then
    let target_control := intersection operation1.wires operation2.control_wires
    let target_target := intersection operation1.wires operation2.target_wires
    -- Case 4.1 (the source tests the same table entry twice)
    if target_control && target_target then
      andEntry (commutationEntry operation1.name operation2.is_controlled)
        (commutationEntry operation1.name operation2.is_controlled)
    -- Case 4.2
    else if target_control && !target_target then
      commutationEntry operation1.name "ctrl"
    -- Case 4.3
    else if !target_control && target_target then
      commutationEntry operation1.name operation2.is_controlled
    else commutationEntry operation1.name operation2.name
  -- Case 5.1: no controlled operations, plain table lookup
  else commutationEntry operation1.name operation2.name

/-- The body of `is_commuting` after the unsupported-operand guards and the
`simplify` calls: the identity-parameter short-circuits, the disjoint-wires
rule, the (always truthy for a named operand) `operation1.name or
operation2.name in non_commuting_operations` test, then `lateCases`. -/
def isCommutingCore (operation1 operation2 : Op) : Except String Bool :=
  if actsAsIdentity operation1 then
    if !(barrierNames.contains operation2.name) then Except.ok true else Except.ok false
  else if actsAsIdentity operation2 then
    if !(barrierNames.contains operation1.name) then Except.ok true else Except.ok false
  -- Case 1: operations are disjoint
  else if !(intersection operation1.wires operation2.wires) then
    Except.ok true
  -- `if operation1.name or operation2.name in non_commuting_operations:`
  -- parses as `(operation1.name) or (operation2.name in ...)`; the first
  -- disjunct is the truthiness of the name string.
  else if !(operation1.name == "") || non_commuting_operations.contains operation2.name then
    Except.ok false
  else lateCases operation1 operation2

/-- `is_commuting(operation1, operation2)`, with a raised
`qml.QuantumFunctionError` modelled as `Except.error`. -/
def isCommuting (operation1 operation2 : Op) : Except String Bool :=
  if notSupported operation1 then
    Except.error ("Operation " ++ operation1.name ++ " not supported.")
  else if notSupported operation2 then
    Except.error ("Operation " ++ operation2.name ++ " not supported.")
  else
    isCommutingCore (maybeSimplify operation1) (maybeSimplify operation2)

/-- Insert a value into a sorted list (ascending). -/
def insertSorted (a : Nat) : List Nat → List Nat
  | [] => [a]
  | b :: l => if a ≤ b then a :: b :: l else b :: insertSorted a l

/-- Ascending sort, modelling the `list.sort()` call of
`CommutationDAG.direct_predecessors`. -/
def sortNat (l : List Nat) : List Nat := l.foldr insertSorted []

/-- Merge two sorted lists, structurally recursing on a fuel argument (the
fuel never runs out when it starts at the combined length, see `merge2`). -/
def merge2Fuel : Nat → List Nat → List Nat → List Nat
  | 0, l1, l2 => l1 ++ l2
  | _ + 1, [], l2 => l2
  | _ + 1, a :: l1, [] => a :: l1
  | fuel + 1, a :: l1, b :: l2 =>
    if a ≤ b then a :: merge2Fuel fuel l1 (b :: l2)
    else b :: merge2Fuel fuel (a :: l1) l2

/-- Merge two sorted lists, as `heapq.merge` does pairwise. -/
def merge2 (l1 l2 : List Nat) : List Nat := merge2Fuel (l1.length + l2.length) l1 l2

/-- Drop adjacent duplicates, as the `val != last` filter of
`_merge_no_duplicates` does. -/
def dedupAdj : List Nat → List Nat
  | [] => []
  | a :: l =>
    match l with
    | [] => [a]
    | b :: t => if a == b then dedupAdj (b :: t) else a :: dedupAdj (b :: t)

/-- `heapq.merge(*iterables)` over a list of sorted lists. -/
def mergeKLists (ls : List (List Nat)) : List Nat := ls.foldr merge2 []

/-- `_merge_no_duplicates(*iterables)`: k-way ordered merge without
duplicates. -/
def mergeNoDuplicates (ls : List (List Nat)) : List Nat := dedupAdj (mergeKLists ls)

/-- `CommutationDAG._pred_update(node_id)`: rebuild the predecessor list of a
node as the duplicate-free merge of `[d]` and `predecessors(d)` for each
direct predecessor `d` (taken in sorted order), where `predsOf` reads the
cached predecessor list of an already inserted node. -/
def predUpdate (dirPreds : List Nat) (predsOf : Nat → List Nat) : List Nat :=
  mergeNoDuplicates (dirPreds.foldr (fun d acc => [d] :: predsOf d :: acc) [])

/-- The state of one `_update_edges` call while scanning previously inserted
nodes: the `reachable` flags, the direct predecessors found so far for the
new node (most recently found first, i.e. ascending node id), and the new
node's cached predecessor list as maintained by `_pred_update`. -/
structure ScanState where
  reach : Nat → Bool
  dirPreds : List Nat
  predNew : List Nat

/-- One iteration of the `for prev_node_id in range(max_node_id - 1, -1, -1)`
loop of `_update_edges`, for the insertion of node `m`: if node `p` is still
reachable and `is_commuting(op_p, op_m)` is false (oracle `f p m = false`),
add the direct edge `p -> m`, recompute the new node's predecessor list, and
clear the `reachable` flag of every node in that list. -/
def scanStep (f : Nat → Nat → Bool) (predsOf : Nat → List Nat) (m : Nat)
    (st : ScanState) (p : Nat) : ScanState :=
  if st.reach p && !(f p m) then
    let dir := p :: st.dirPreds
    let predNew := predUpdate (sortNat dir) predsOf
    { reach := fun q => if predNew.contains q then false else st.reach q,
      dirPreds := dir, predNew := predNew }
  else st

/-- The id sequence `range(k - 1, -1, -1)`: `[k-1, ..., 1, 0]`. -/
def countdown : Nat → List Nat
  | 0 => []
  | k + 1 => k :: countdown k

/-- The scan state at the start of `_update_edges`: every previously
inserted node has `reachable = True`, the new node has no direct
predecessors and an empty predecessor list. -/
def initScanState : ScanState :=
  { reach := fun _ => true, dirPreds := [], predNew := [] }

/-- A full `_update_edges` run for the insertion of node `m`, scanning nodes
`m-1, ..., 0` in reverse insertion order. -/
def runScan (f : Nat → Nat → Bool) (predsOf : Nat → List Nat) (m : Nat) : ScanState :=
  (countdown m).foldl (scanStep f predsOf m) initScanState

/-- The cached predecessor lists of nodes `0, ..., n-1` after `n`
`add_node` calls, the oracle `f i j` being `is_commuting(op_i, op_j)`:
each insertion appends the new node's predecessor list as computed by its
`_update_edges` run against the already stored lists. -/
def buildPreds (f : Nat → Nat → Bool) : Nat → List (List Nat)
  | 0 => []
  | m + 1 =>
    let ps := buildPreds f m
    ps ++ [(runScan f (fun i => ps.getD i []) m).predNew]

/-- The cached predecessor list of node `m` (fixed at its insertion; later
insertions only add edges into later nodes). -/
def nodePreds (f : Nat → Nat → Bool) (m : Nat) : List Nat :=
  (runScan f (fun i => (buildPreds f m).getD i []) m).predNew

/-- The direct predecessors of node `m`, i.e. the sources of the edges
`add_edge(prev_node_id, max_node_id)` added while inserting node `m`. -/
def nodeDirPreds (f : Nat → Nat → Bool) (m : Nat) : List Nat :=
  (runScan f (fun i => (buildPreds f m).getD i []) m).dirPreds

/-- The edge relation of the incrementally built DAG: `i -> j` iff the edge
was added during the insertion of node `j`. -/
def dagEdge (f : Nat → Nat → Bool) (i j : Nat) : Prop := i ∈ nodeDirPreds f j

/-- Every edge of the multigraph after the first `k` `add_node` calls, in
insertion order. -/
def dagEdgesUpTo (f : Nat → Nat → Bool) (k : Nat) : List (Nat × Nat) :=
  ((List.range k).map (fun m => (nodeDirPreds f m).map (fun p => (p, m)))).flatten

/-- The brute-force edge relation: a direct edge `i -> j` for every pair
`i < j` whose operations do not commute. -/
def bruteEdge (f : Nat → Nat → Bool) (i j : Nat) : Prop := i < j ∧ f i j = false

/-- The pairwise-commutation oracle over an operation list, as invoked by
`_update_edges`: `is_commuting(op_i, op_j)` (an exception would abort
`add_node`; on the supported operation sequences the claims quantify over it
never occurs). -/
def opsOracle (ops : List Op) (i j : Nat) : Bool :=
  match isCommuting (ops.getD i default) (ops.getD j default) with
  | Except.ok b => b
  | Except.error _ => false

/-- A tape operation or observable as seen by the `get_dag_commutation`
wrapper, with wire labels of an arbitrary (opaque, comparable) type `α`. -/
structure TapeOp (α : Type) where
  name : String
  wires : List α
  data : List Frac := []
deriving DecidableEq

/-- The wire map built by the wrapper,
`OrderedDict(zip(wires, consecutive_wires))`: each tape wire label is sent
to its index in the tape's wire list (for `Wires` the labels are distinct,
so the dictionary lookup is the index of the first occurrence). -/
def wireIndex {α : Type} [DecidableEq α] (ws : List α) (w : α) : Nat := ws.indexOf w

/-- The in-place relabeling
`operation._wires = Wires([wires_map[wire] for wire in operation.wires.tolist()])`
performed on one tape operation (or observable). -/
def relabelOp {α : Type} [DecidableEq α] (ws : List α) (op : TapeOp α) : TapeOp Nat :=
  { name := op.name, wires := op.wires.map (wireIndex ws), data := op.data }

/-- The wrapper's relabeling pass over the whole tape. -/
def relabelTape {α : Type} [DecidableEq α] (ws : List α) (ops : List (TapeOp α)) :
    List (TapeOp Nat) :=
  ops.map (relabelOp ws)

/-- The inverse presentation step: map each dense integer label back to the
original tape wire label (the tape's cached `tape.wires` list still holds
the original labels after the wrapper runs). -/
def restoreOp {α : Type} (ws : List α) (dflt : α) (op : TapeOp Nat) : TapeOp α :=
  { name := op.name, wires := op.wires.map (fun i => ws.getD i dflt), data := op.data }

/-- Well-formedness of an operation descriptor, modelling invariants of the
(out of scope) operation layer: `Rot`, `CRot` and `U3` carry three
parameters, `U2` carries two, barrier / no-op markers carry none, and the
wires of a controlled rotation are its control wires plus its target wires.
On descriptors violating these arities the Python `simplify` helpers would
raise `IndexError` instead of returning a value. -/
def wfOp (op : Op) : Bool :=
  (if op.name == "Rot" || op.name == "CRot" || op.name == "U3" then
    op.data.length == 3
   else if op.name == "U2" then op.data.length == 2
   else true)
  && (if barrierNames.contains op.name then op.data.isEmpty else true)
  && (if op.name == "CRot" then
        op.wires.all (fun w => (op.control_wires ++ op.target_wires).contains w)
        && (op.control_wires ++ op.target_wires).all (fun w => op.wires.contains w)
      else true)

/-- The invariant tying the three components of a scan state together: the
new node's cached predecessor list is generated by its direct predecessors
and their cached lists, and the `reachable` flags are exactly the complement
of the cached predecessor list. -/
def ScanInv (P : Nat → List Nat) (st : ScanState) : Prop :=
  (∀ y, y ∈ st.predNew ↔ ∃ d ∈ st.dirPreds, y = d ∨ y ∈ P d) ∧
  (∀ q, st.reach q = false ↔ q ∈ st.predNew)

/-! ## Membership lemmas for the sorted-merge machinery -/

theorem mem_insertSorted (a x : Nat) : ∀ l : List Nat,
    (x ∈ insertSorted a l ↔ x = a ∨ x ∈ l) := by
  intro l
  induction l with
  | nil => simp [insertSorted]
  | cons b t ih =>
    by_cases h : a ≤ b
    · simp [insertSorted, h]
    · simp only [insertSorted, if_neg h, List.mem_cons, ih]
      tauto

theorem mem_sortNat (x : Nat) : ∀ l : List Nat, (x ∈ sortNat l ↔ x ∈ l) := by
  intro l
  induction l with
  | nil => simp [sortNat]
  | cons b t ih =>
    simp only [sortNat, List.foldr_cons] at *
    rw [mem_insertSorted]
    simp only [List.mem_cons, ih]

theorem mem_merge2Fuel (x : Nat) : ∀ fuel l1 l2,
    (x ∈ merge2Fuel fuel l1 l2 ↔ x ∈ l1 ∨ x ∈ l2) := by
  intro fuel
  induction fuel with
  | zero => intro l1 l2; simp [merge2Fuel]
  | succ n ih =>
    intro l1 l2
    match l1, l2 with
    | [], l2 => simp [merge2Fuel]
    | a :: t1, [] => simp [merge2Fuel]
    | a :: t1, b :: t2 =>
      by_cases h : a ≤ b
      · simp only [merge2Fuel, if_pos h, List.mem_cons, ih]
        tauto
      · simp only [merge2Fuel, if_neg h, List.mem_cons, ih]
        tauto

theorem mem_merge2 (x : Nat) (l1 l2 : List Nat) :
    x ∈ merge2 l1 l2 ↔ x ∈ l1 ∨ x ∈ l2 :=
  mem_merge2Fuel x (l1.length + l2.length) l1 l2

theorem mem_dedupAdj (x : Nat) : ∀ l : List Nat, (x ∈ dedupAdj l ↔ x ∈ l) := by
  intro l
  induction l with
  | nil => simp [dedupAdj]
  | cons a t ih =>
    cases t with
    | nil => simp [dedupAdj]
    | cons b t2 =>
      by_cases h : a = b
      · subst h
        simp only [dedupAdj, beq_self_eq_true, if_pos, ih, List.mem_cons]
        tauto
      · have hb : (a == b) = false := by simpa using h
        simp only [dedupAdj, hb, Bool.false_eq_true, if_false, List.mem_cons, ih]

theorem mem_mergeKLists (x : Nat) : ∀ ls : List (List Nat),
    (x ∈ mergeKLists ls ↔ ∃ l ∈ ls, x ∈ l) := by
  intro ls
  induction ls with
  | nil => simp [mergeKLists]
  | cons l t ih =>
    simp only [mergeKLists, List.foldr_cons] at *
    rw [mem_merge2]
    simp only [ih, List.mem_cons]
    constructor
    · rintro (h | ⟨l2, hl2, hx⟩)
      · exact ⟨l, Or.inl rfl, h⟩
      · exact ⟨l2, Or.inr hl2, hx⟩
    · rintro ⟨l2, (rfl | hl2), hx⟩
      · exact Or.inl hx
      · exact Or.inr ⟨l2, hl2, hx⟩

theorem mem_mergeNoDuplicates (x : Nat) (ls : List (List Nat)) :
    x ∈ mergeNoDuplicates ls ↔ ∃ l ∈ ls, x ∈ l := by
  rw [mergeNoDuplicates, mem_dedupAdj, mem_mergeKLists]

theorem mem_predUpdate_aux (x : Nat) (P : Nat → List Nat) : ∀ ds : List Nat,
    ((∃ l ∈ ds.foldr (fun d acc => [d] :: P d :: acc) [], x ∈ l) ↔
      ∃ d ∈ ds, x = d ∨ x ∈ P d) := by
  intro ds
  induction ds with
  | nil => simp
  | cons d t ih =>
    simp only [List.foldr_cons, List.mem_cons] at *
    constructor
    · rintro ⟨l, (rfl | rfl | hl), hx⟩
      · exact ⟨d, Or.inl rfl, Or.inl (by simpa using hx)⟩
      · exact ⟨d, Or.inl rfl, Or.inr hx⟩
      · obtain ⟨d2, hd2, hx2⟩ := ih.1 ⟨l, hl, hx⟩
        exact ⟨d2, Or.inr hd2, hx2⟩
    · rintro ⟨d2, hd2, hx⟩
      rcases hd2 with rfl | hd2
      · rcases hx with rfl | hx
        · exact ⟨[x], Or.inl rfl, by simp⟩
        · exact ⟨P d2, Or.inr (Or.inl rfl), hx⟩
      · obtain ⟨l, hl, hx2⟩ := ih.2 ⟨d2, hd2, hx⟩
        exact ⟨l, Or.inr (Or.inr hl), hx2⟩

theorem mem_predUpdate (x : Nat) (ds : List Nat) (P : Nat → List Nat) :
    x ∈ predUpdate ds P ↔ ∃ d ∈ ds, x = d ∨ x ∈ P d := by
  rw [predUpdate, mem_mergeNoDuplicates, mem_predUpdate_aux]

/-! ## Invariants of the `_update_edges` scan -/

theorem mem_predUpdate_sortNat (y : Nat) (ds : List Nat) (P : Nat → List Nat) :
    y ∈ predUpdate (sortNat ds) P ↔ ∃ d ∈ ds, y = d ∨ y ∈ P d := by
  rw [mem_predUpdate]
  constructor
  · rintro ⟨d, hd, h⟩; exact ⟨d, (mem_sortNat d ds).mp hd, h⟩
  · rintro ⟨d, hd, h⟩; exact ⟨d, (mem_sortNat d ds).mpr hd, h⟩

theorem scanInv_init (P : Nat → List Nat) : ScanInv P initScanState := by
  constructor
  · intro y; simp [initScanState]
  · intro q; simp [initScanState]

theorem scanStep_of_neg (f : Nat → Nat → Bool) (P : Nat → List Nat) (m : Nat)
    (st : ScanState) (p : Nat) (h : ¬ (st.reach p && !(f p m)) = true) :
    scanStep f P m st p = st := by
  rw [scanStep, if_neg h]

theorem scanStep_of_pos (f : Nat → Nat → Bool) (P : Nat → List Nat) (m : Nat)
    (st : ScanState) (p : Nat) (h : (st.reach p && !(f p m)) = true) :
    scanStep f P m st p =
      { reach := fun q =>
          if (predUpdate (sortNat (p :: st.dirPreds)) P).contains q then false
          else st.reach q,
        dirPreds := p :: st.dirPreds,
        predNew := predUpdate (sortNat (p :: st.dirPreds)) P } := by
  rw [scanStep, if_pos h]

theorem scanInv_step (f : Nat → Nat → Bool) (P : Nat → List Nat) (m : Nat)
    (st : ScanState) (p : Nat) (hInv : ScanInv P st) :
    ScanInv P (scanStep f P m st p) := by
  obtain ⟨h1, h2⟩ := hInv
  by_cases h : (st.reach p && !(f p m)) = true
  · rw [scanStep_of_pos f P m st p h]
    constructor
    · intro y
      exact mem_predUpdate_sortNat y (p :: st.dirPreds) P
    · intro q
      simp only []
      by_cases hq : (predUpdate (sortNat (p :: st.dirPreds)) P).contains q = true
      · rw [if_pos hq]
        constructor
        · intro _
          exact List.elem_iff.mp hq
        · intro _; rfl
      · rw [if_neg hq]
        rw [h2 q]
        constructor
        · intro hmem
          rw [h1 q] at hmem
          obtain ⟨d, hd, hyd⟩ := hmem
          exact (mem_predUpdate_sortNat q (p :: st.dirPreds) P).mpr
            ⟨d, List.mem_cons_of_mem p hd, hyd⟩
        · intro hmem
          exact absurd (List.elem_iff.mpr hmem) hq
  · rw [scanStep_of_neg f P m st p h]
    exact ⟨h1, h2⟩

theorem predNew_mono_step (f : Nat → Nat → Bool) (P : Nat → List Nat) (m : Nat)
    (st : ScanState) (p : Nat) (hInv : ScanInv P st) (y : Nat)
    (hy : y ∈ st.predNew) : y ∈ (scanStep f P m st p).predNew := by
  by_cases h : (st.reach p && !(f p m)) = true
  · rw [scanStep_of_pos f P m st p h]
    obtain ⟨d, hd, hyd⟩ := (hInv.1 y).mp hy
    exact (mem_predUpdate_sortNat y (p :: st.dirPreds) P).mpr
      ⟨d, List.mem_cons_of_mem p hd, hyd⟩
  · rw [scanStep_of_neg f P m st p h]
    exact hy

theorem dirPreds_mono_step (f : Nat → Nat → Bool) (P : Nat → List Nat) (m : Nat)
    (st : ScanState) (p : Nat) (y : Nat)
    (hy : y ∈ st.dirPreds) : y ∈ (scanStep f P m st p).dirPreds := by
  by_cases h : (st.reach p && !(f p m)) = true
  · rw [scanStep_of_pos f P m st p h]
    exact List.mem_cons_of_mem p hy
  · rw [scanStep_of_neg f P m st p h]
    exact hy

theorem scanInv_foldl (f : Nat → Nat → Bool) (P : Nat → List Nat) (m : Nat) :
    ∀ (k : Nat) (st : ScanState), ScanInv P st →
      ScanInv P ((countdown k).foldl (scanStep f P m) st) := by
  intro k
  induction k with
  | zero => intro st h; exact h
  | succ k ih =>
    intro st h
    rw [countdown, List.foldl_cons]
    exact ih _ (scanInv_step f P m st k h)

theorem predNew_mono_foldl (f : Nat → Nat → Bool) (P : Nat → List Nat) (m : Nat) :
    ∀ (k : Nat) (st : ScanState), ScanInv P st → ∀ y, y ∈ st.predNew →
      y ∈ ((countdown k).foldl (scanStep f P m) st).predNew := by
  intro k
  induction k with
  | zero => intro st _ y hy; exact hy
  | succ k ih =>
    intro st h y hy
    rw [countdown, List.foldl_cons]
    exact ih _ (scanInv_step f P m st k h) y (predNew_mono_step f P m st k h y hy)

theorem dirPreds_foldl_spec (f : Nat → Nat → Bool) (P : Nat → List Nat) (m : Nat) :
    ∀ (k : Nat) (st : ScanState) (y : Nat),
      y ∈ ((countdown k).foldl (scanStep f P m) st).dirPreds →
      y ∈ st.dirPreds ∨ (y < k ∧ f y m = false) := by
  intro k
  induction k with
  | zero => intro st y hy; exact Or.inl hy
  | succ k ih =>
    intro st y hy
    rw [countdown, List.foldl_cons] at hy
    rcases ih _ y hy with hmem | ⟨hlt, hf⟩
    · by_cases h : (st.reach k && !(f k m)) = true
      · rw [scanStep_of_pos f P m st k h] at hmem
        rcases List.mem_cons.mp hmem with rfl | hmem2
        · right
          refine ⟨Nat.lt_succ_self y, ?_⟩
          have := (Bool.and_eq_true _ _).mp h
          simpa using this.2
        · exact Or.inl hmem2
      · rw [scanStep_of_neg f P m st k h] at hmem
        exact Or.inl hmem
    · exact Or.inr ⟨Nat.lt_succ_of_lt hlt, hf⟩

theorem mem_predNew_foldl (f : Nat → Nat → Bool) (P : Nat → List Nat) (m : Nat) :
    ∀ (k : Nat) (st : ScanState), ScanInv P st → ∀ q, q < k → f q m = false →
      q ∈ ((countdown k).foldl (scanStep f P m) st).predNew := by
  intro k
  induction k with
  | zero => intro st _ q hq; exact absurd hq (Nat.not_lt_zero q)
  | succ k ih =>
    intro st hInv q hq hf
    rw [countdown, List.foldl_cons]
    rcases Nat.lt_succ_iff_lt_or_eq.mp hq with hlt | rfl
    · exact ih _ (scanInv_step f P m st k hInv) q hlt hf
    · -- q = k is examined at this very step
      by_cases h : (st.reach q && !(f q m)) = true
      · -- the edge q -> m is added now, so q enters the predecessor list
        apply predNew_mono_foldl f P m q _ (scanInv_step f P m st q hInv)
        rw [scanStep_of_pos f P m st q h]
        exact (mem_predUpdate_sortNat q (q :: st.dirPreds) P).mpr
          ⟨q, List.mem_cons_self q st.dirPreds, Or.inl rfl⟩
      · -- q was already unreachable, hence already in the predecessor list
        apply predNew_mono_foldl f P m q _ (scanInv_step f P m st q hInv)
        apply predNew_mono_step f P m st q hInv
        have hreach : st.reach q = false := by
          rcases Bool.eq_false_or_eq_true (st.reach q) with hr | hr
          · exfalso; exact h (by simp [hr, hf])
          · exact hr
        exact (hInv.2 q).mp hreach

/-! ## Node-level consequences -/

theorem scanInv_runScan (f : Nat → Nat → Bool) (P : Nat → List Nat) (m : Nat) :
    ScanInv P (runScan f P m) :=
  scanInv_foldl f P m m initScanState (scanInv_init P)

theorem buildPreds_length (f : Nat → Nat → Bool) : ∀ n, (buildPreds f n).length = n := by
  intro n
  induction n with
  | zero => rfl
  | succ n ih => simp [buildPreds, ih]

theorem buildPreds_getD (f : Nat → Nat → Bool) :
    ∀ n i, i < n → (buildPreds f n).getD i [] = nodePreds f i := by
  intro n
  induction n with
  | zero => intro i hi; exact absurd hi (Nat.not_lt_zero i)
  | succ n ih =>
    intro i hi
    rcases Nat.lt_succ_iff_lt_or_eq.mp hi with hlt | rfl
    · rw [buildPreds]
      rw [List.getD_append _ _ _ _ (by rw [buildPreds_length]; exact hlt)]
      exact ih i hlt
    · rw [buildPreds, nodePreds]
      have hlen : (buildPreds f i).length = i := buildPreds_length f i
      rw [List.getD_eq_getElem?_getD, List.getElem?_append_right (by omega)]
      simp [hlen]

theorem nodeDirPreds_spec (f : Nat → Nat → Bool) (m y : Nat)
    (hy : y ∈ nodeDirPreds f m) : y < m ∧ f y m = false := by
  rcases dirPreds_foldl_spec f (fun i => (buildPreds f m).getD i []) m m initScanState y hy
    with hmem | h
  · exact absurd hmem (List.not_mem_nil y)
  · exact h

theorem bruteEdge_mem_nodePreds (f : Nat → Nat → Bool) (m q : Nat)
    (hq : q < m) (hf : f q m = false) : q ∈ nodePreds f m :=
  mem_predNew_foldl f (fun i => (buildPreds f m).getD i []) m m initScanState
    (scanInv_init _) q hq hf

theorem mem_nodePreds_iff (f : Nat → Nat → Bool) (m y : Nat) :
    y ∈ nodePreds f m ↔ ∃ d ∈ nodeDirPreds f m, y = d ∨ y ∈ nodePreds f d := by
  have h := (scanInv_runScan f (fun i => (buildPreds f m).getD i []) m).1 y
  rw [nodePreds, nodeDirPreds] at *
  rw [h]
  constructor
  · rintro ⟨d, hd, hyd⟩
    refine ⟨d, hd, ?_⟩
    rcases hyd with rfl | hyd
    · exact Or.inl rfl
    · right
      have hdm : d < m :=
        (nodeDirPreds_spec f m d (by rw [nodeDirPreds]; exact hd)).1
      simp only [buildPreds_getD f m d hdm] at hyd
      exact hyd
  · rintro ⟨d, hd, hyd⟩
    refine ⟨d, hd, ?_⟩
    rcases hyd with rfl | hyd
    · exact Or.inl rfl
    · right
      have hdm : d < m :=
        (nodeDirPreds_spec f m d (by rw [nodeDirPreds]; exact hd)).1
      simp only [buildPreds_getD f m d hdm]
      exact hyd

/-! ## The cached predecessor lists are the transitive closure of the
incrementally built edge set -/

theorem mem_nodePreds_transGen (f : Nat → Nat → Bool) :
    ∀ m y, y ∈ nodePreds f m ↔ Relation.TransGen (dagEdge f) y m := by
  intro m
  induction m using Nat.strong_induction_on with
  | _ m ih =>
    intro y
    constructor
    · intro hy
      obtain ⟨d, hd, hyd⟩ := (mem_nodePreds_iff f m y).mp hy
      rcases hyd with rfl | hyd
      · exact Relation.TransGen.single hd
      · have hdm : d < m := (nodeDirPreds_spec f m d hd).1
        exact Relation.TransGen.tail ((ih d hdm y).mp hyd) hd
    · intro hy
      cases hy with
      | single h => exact (mem_nodePreds_iff f m y).mpr ⟨y, h, Or.inl rfl⟩
      | tail hyb hbm =>
        rename_i b
        have hbmlt : b < m := (nodeDirPreds_spec f m b hbm).1
        exact (mem_nodePreds_iff f m y).mpr
          ⟨b, hbm, Or.inr ((ih b hbmlt y).mpr hyb)⟩

/-! ## Reachability equivalence between the incremental and the brute-force
construction -/

theorem transGen_dagEdge_iff_bruteEdge (f : Nat → Nat → Bool) :
    ∀ m y, Relation.TransGen (dagEdge f) y m ↔ Relation.TransGen (bruteEdge f) y m := by
  have hsub : ∀ a b, dagEdge f a b → bruteEdge f a b := by
    intro a b h
    have := nodeDirPreds_spec f b a h
    exact ⟨this.1, this.2⟩
  intro m
  induction m using Nat.strong_induction_on with
  | _ m ih =>
    intro y
    constructor
    · intro h
      exact Relation.TransGen.mono hsub h
    · intro h
      cases h with
      | single hedge =>
        exact (mem_nodePreds_transGen f m y).mp
          (bruteEdge_mem_nodePreds f m y hedge.1 hedge.2)
      | tail hyb hbm =>
        rename_i b
        have hbm2 : Relation.TransGen (dagEdge f) b m :=
          (mem_nodePreds_transGen f m b).mp
            (bruteEdge_mem_nodePreds f m b hbm.1 hbm.2)
        exact Relation.TransGen.trans ((ih b hbm.1 y).mpr hyb) hbm2

/-! ## Properties of `intersection` and the simplification helpers -/

theorem intersection_eq_true_iff (w1 w2 : List Nat) :
    intersection w1 w2 = true ↔ ∃ x, x ∈ w1 ∧ x ∈ w2 := by
  rw [intersection, List.any_eq_true]
  constructor
  · rintro ⟨x, h1, h2⟩
    exact ⟨x, h1, List.elem_iff.mp h2⟩
  · rintro ⟨x, h1, h2⟩
    exact ⟨x, h1, List.elem_iff.mpr h2⟩

theorem intersection_comm (w1 w2 : List Nat) :
    intersection w1 w2 = intersection w2 w1 := by
  rw [Bool.eq_iff_iff, intersection_eq_true_iff, intersection_eq_true_iff]
  constructor
  · rintro ⟨x, h1, h2⟩; exact ⟨x, h2, h1⟩
  · rintro ⟨x, h1, h2⟩; exact ⟨x, h2, h1⟩

theorem intersection_congr (w1 w1p w2 w2p : List Nat)
    (h1 : ∀ x, x ∈ w1p ↔ x ∈ w1) (h2 : ∀ x, x ∈ w2p ↔ x ∈ w2) :
    intersection w1p w2p = intersection w1 w2 := by
  rw [Bool.eq_iff_iff, intersection_eq_true_iff, intersection_eq_true_iff]
  constructor
  · rintro ⟨x, hx1, hx2⟩; exact ⟨x, (h1 x).mp hx1, (h2 x).mp hx2⟩
  · rintro ⟨x, hx1, hx2⟩; exact ⟨x, (h1 x).mpr hx1, (h2 x).mpr hx2⟩

theorem simplify_rotation_cases (op : Op) :
    simplify_rotation op = mkRX (op.data.getD 1 fZero) op.wires ∨
    simplify_rotation op = mkRY (op.data.getD 1 fZero) op.wires ∨
    simplify_rotation op = mkRZ ((op.data.getD 0 fZero).add (op.data.getD 2 fZero)) op.wires ∨
    simplify_rotation op = { name := "Hadamard", wires := op.wires } ∨
    simplify_rotation op = op := by
  simp only [simplify_rotation]
  split
  · exact Or.inl rfl
  · split
    · exact Or.inr (Or.inl rfl)
    · split
      · exact Or.inr (Or.inr (Or.inl rfl))
      · split
        · exact Or.inr (Or.inr (Or.inr (Or.inl rfl)))
        · exact Or.inr (Or.inr (Or.inr (Or.inr rfl)))

theorem simplify_u2_cases (op : Op) :
    simplify_u2 op = mkRY fHalf op.wires ∨
    simplify_u2 op = mkRX (op.data.getD 1 fZero) op.wires ∨
    simplify_u2 op = op := by
  simp only [simplify_u2]
  split
  · exact Or.inl rfl
  · split
    · exact Or.inr (Or.inl rfl)
    · exact Or.inr (Or.inr rfl)

theorem simplify_u3_cases (op : Op) :
    simplify_u3 op = mkRZ (op.data.getD 0 fZero) op.wires ∨
    simplify_u3 op = mkRX (op.data.getD 1 fZero) op.wires ∨
    simplify_u3 op = mkRY (op.data.getD 0 fZero) op.wires ∨
    simplify_u3 op = op := by
  simp only [simplify_u3]
  split
  · exact Or.inl rfl
  · split
    · exact Or.inr (Or.inl rfl)
    · split
      · exact Or.inr (Or.inr (Or.inl rfl))
      · exact Or.inr (Or.inr (Or.inr rfl))

theorem simplify_controlled_rotation_cases (op : Op) :
    (simplify_controlled_rotation op).name = "CRX" ∧
      (simplify_controlled_rotation op).wires = op.wires ∨
    (simplify_controlled_rotation op).name = "CRY" ∧
      (simplify_controlled_rotation op).wires = op.wires ∨
    (simplify_controlled_rotation op).name = "CRZ" ∧
      (simplify_controlled_rotation op).wires = op.wires ∨
    (simplify_controlled_rotation op).name = "C(Hadamard)" ∧
      (simplify_controlled_rotation op).wires = op.target_wires ++ op.control_wires ∨
    simplify_controlled_rotation op = op := by
  simp only [simplify_controlled_rotation]
  split
  · exact Or.inl ⟨rfl, rfl⟩
  · split
    · exact Or.inr (Or.inl ⟨rfl, rfl⟩)
    · split
      · exact Or.inr (Or.inr (Or.inl ⟨rfl, rfl⟩))
      · split
        · exact Or.inr (Or.inr (Or.inr (Or.inl ⟨rfl, rfl⟩)))
        · exact Or.inr (Or.inr (Or.inr (Or.inr rfl)))

/-- Either `maybeSimplify` is the identity, or the operand was one of the
four simplifiable kinds and the result has one of the fixed simplified names
(possibly the original one when no modular identity applies). -/
theorem maybeSimplify_spec (op : Op) :
    maybeSimplify op = op ∨
    ((op.name = "U2" ∨ op.name = "U3" ∨ op.name = "Rot" ∨ op.name = "CRot") ∧
     ((maybeSimplify op).name = op.name ∨
      (maybeSimplify op).name = "RX" ∨ (maybeSimplify op).name = "RY" ∨
      (maybeSimplify op).name = "RZ" ∨ (maybeSimplify op).name = "Hadamard" ∨
      (maybeSimplify op).name = "CRX" ∨ (maybeSimplify op).name = "CRY" ∨
      (maybeSimplify op).name = "CRZ" ∨ (maybeSimplify op).name = "C(Hadamard)")) := by
  by_cases hg : (op.name == "U2" || op.name == "U3" || op.name == "Rot"
      || op.name == "CRot") = true
  · right
    have hname : op.name = "U2" ∨ op.name = "U3" ∨ op.name = "Rot" ∨ op.name = "CRot" := by
      have h2 := hg
      simp only [Bool.or_eq_true, beq_iff_eq] at h2
      tauto
    have hms : maybeSimplify op = simplify op := by rw [maybeSimplify, if_pos hg]
    refine ⟨hname, ?_⟩
    rw [hms]
    rcases hname with h | h | h | h
    · have hs : simplify op = simplify_u2 op := by rw [simplify, h]; simp
      rw [hs]
      rcases simplify_u2_cases op with hc | hc | hc <;> rw [hc] <;>
        simp [mkRX, mkRY, h]
    · have hs : simplify op = simplify_u3 op := by rw [simplify, h]; simp
      rw [hs]
      rcases simplify_u3_cases op with hc | hc | hc | hc <;> rw [hc] <;>
        simp [mkRX, mkRY, mkRZ, h]
    · have hs : simplify op = simplify_rotation op := by rw [simplify, h]; simp
      rw [hs]
      rcases simplify_rotation_cases op with hc | hc | hc | hc | hc <;> rw [hc] <;>
        simp [mkRX, mkRY, mkRZ, h]
    · have hs : simplify op = simplify_controlled_rotation op := by rw [simplify, h]; simp
      rw [hs]
      rcases simplify_controlled_rotation_cases op
        with ⟨hc, _⟩ | ⟨hc, _⟩ | ⟨hc, _⟩ | ⟨hc, _⟩ | hc
      · simp [hc]
      · simp [hc]
      · simp [hc]
      · simp [hc]
      · rw [hc]; simp
  · left
    rw [maybeSimplify, if_neg hg]

theorem wf_barrier_data_empty (op : Op) (hw : wfOp op = true)
    (hb : barrierNames.contains op.name = true) : op.data.isEmpty = true := by
  simp only [wfOp, Bool.and_eq_true] at hw
  obtain ⟨⟨-, hB⟩, -⟩ := hw
  rwa [if_pos hb] at hB

theorem actsAsIdentity_data_nonempty (op : Op) (hz : actsAsIdentity op = true) :
    op.data.isEmpty = false := by
  simp only [actsAsIdentity, Bool.and_eq_true] at hz
  obtain ⟨⟨hne, -⟩, -⟩ := hz
  simpa using hne

/-- Under the operation-layer invariants, an operand that triggers the
identity-parameter short-circuit after simplification is never a barrier /
no-op marker: barriers carry no parameters and no simplified operation is
named `Barrier` or `WireCut`. -/
theorem barrier_of_actsAsIdentity (op : Op) (hw : wfOp op = true)
    (hz : actsAsIdentity (maybeSimplify op) = true) :
    barrierNames.contains (maybeSimplify op).name = false := by
  rcases maybeSimplify_spec op with he | ⟨hname, hres⟩
  · rw [he] at hz ⊢
    cases hc : barrierNames.contains op.name with
    | false => rfl
    | true =>
      exfalso
      have h1 := wf_barrier_data_empty op hw hc
      have h2 := actsAsIdentity_data_nonempty op hz
      rw [h1] at h2
      exact Bool.noConfusion h2
  · rcases hres with h | hres2
    · rw [h]
      rcases hname with hn | hn | hn | hn <;> rw [hn] <;> rfl
    · rcases hres2 with h | h | h | h | h | h | h | h <;> rw [h] <;> rfl

/-- Simplification never produces an operation with an empty name. -/
theorem name_maybeSimplify_ne_empty (op : Op) (h : ¬op.name = "") :
    ¬(maybeSimplify op).name = "" := by
  rcases maybeSimplify_spec op with he | ⟨-, hres⟩
  · rw [he]; exact h
  · rcases hres with hn | hn | hn | hn | hn | hn | hn | hn | hn <;> rw [hn] <;> simp [h]

/-- Under the operation-layer invariants, simplification preserves the wire
set (the controlled-Hadamard case reorders control and target wires but acts
on the same set). -/
theorem mem_wires_maybeSimplify (op : Op) (hw : wfOp op = true) (x : Nat) :
    x ∈ (maybeSimplify op).wires ↔ x ∈ op.wires := by
  by_cases hg : (op.name == "U2" || op.name == "U3" || op.name == "Rot"
      || op.name == "CRot") = true
  · have hms : maybeSimplify op = simplify op := by rw [maybeSimplify, if_pos hg]
    have hname : op.name = "U2" ∨ op.name = "U3" ∨ op.name = "Rot" ∨ op.name = "CRot" := by
      have h2 := hg
      simp only [Bool.or_eq_true, beq_iff_eq] at h2
      tauto
    rw [hms]
    rcases hname with h | h | h | h
    · have hs : simplify op = simplify_u2 op := by rw [simplify, h]; simp
      rw [hs]
      rcases simplify_u2_cases op with hc | hc | hc <;> rw [hc] <;> simp [mkRX, mkRY]
    · have hs : simplify op = simplify_u3 op := by rw [simplify, h]; simp
      rw [hs]
      rcases simplify_u3_cases op with hc | hc | hc | hc <;> rw [hc] <;>
        simp [mkRX, mkRY, mkRZ]
    · have hs : simplify op = simplify_rotation op := by rw [simplify, h]; simp
      rw [hs]
      rcases simplify_rotation_cases op with hc | hc | hc | hc | hc <;> rw [hc] <;>
        simp [mkRX, mkRY, mkRZ]
    · have hs : simplify op = simplify_controlled_rotation op := by rw [simplify, h]; simp
      rw [hs]
      rcases simplify_controlled_rotation_cases op
        with ⟨-, hc⟩ | ⟨-, hc⟩ | ⟨-, hc⟩ | ⟨-, hc⟩ | hc
      · rw [hc]
      · rw [hc]
      · rw [hc]
      · rw [hc]
        -- the wire-partition clause of `wfOp` for a CRot
        simp only [wfOp, Bool.and_eq_true] at hw
        obtain ⟨-, hC⟩ := hw
        have hb : (op.name == "Rot" || op.name == "CRot" || op.name == "U3") = true := by
          rw [h]; rfl
        rw [if_pos (by rw [h]; rfl : (op.name == "CRot") = true)] at hC
        rw [Bool.and_eq_true, List.all_eq_true, List.all_eq_true] at hC
        obtain ⟨hC1, hC2⟩ := hC
        constructor
        · intro hx
          have hx2 : x ∈ op.control_wires ++ op.target_wires := by
            rw [List.mem_append] at hx ⊢
            tauto
          exact List.elem_iff.mp (hC2 x hx2)
        · intro hx
          have hx2 := List.elem_iff.mp (hC1 x hx)
          rw [List.mem_append] at hx2 ⊢
          tauto
      · rw [hc]
  · rw [maybeSimplify, if_neg hg]

/-- Closed form of `isCommutingCore` for a first operand with a non-empty
name: the identity-parameter short-circuits answer first, then the
disjoint-wires rule, and everything else returns `False` through the
always-truthy `operation1.name or operation2.name in non_commuting_operations`
test -- the table lookups and the controlled-operation case split of
`lateCases` are unreachable. -/
theorem isCommutingCore_eq (op1 op2 : Op) (h1 : ¬op1.name = "") :
    isCommutingCore op1 op2 = Except.ok
      (if actsAsIdentity op1 then !(barrierNames.contains op2.name)
       else if actsAsIdentity op2 then !(barrierNames.contains op1.name)
       else !(intersection op1.wires op2.wires)) := by
  rw [isCommutingCore]
  by_cases hz1 : actsAsIdentity op1 = true
  · rw [if_pos hz1, if_pos hz1]
    cases hb : barrierNames.contains op2.name <;> simp [hb]
  · rw [if_neg hz1, if_neg hz1]
    by_cases hz2 : actsAsIdentity op2 = true
    · rw [if_pos hz2, if_pos hz2]
      cases hb : barrierNames.contains op1.name <;> simp [hb]
    · rw [if_neg hz2, if_neg hz2]
      cases hi : intersection op1.wires op2.wires
      · simp [hi]
      · simp only [hi, Bool.not_true, Bool.false_eq_true, if_false]
        have hn : (op1.name == "") = false := by simpa using h1
        rw [if_pos]
        simp [hn]

theorem isCommuting_eq_core (a b : Op)
    (ha : notSupported a = false) (hb : notSupported b = false) :
    isCommuting a b = isCommutingCore (maybeSimplify a) (maybeSimplify b) := by
  rw [isCommuting, if_neg (by simp [ha]), if_neg (by simp [hb])]

/-- C5: for every pair of supported, well-formed operations with non-empty
names (the pairs on which `is_commuting` does not raise),
`is_commuting(a, b) == is_commuting(b, a)`. -/
theorem is_commuting_symmetric (a b : Op)
    (ha : notSupported a = false) (hb : notSupported b = false)
    (hwa : wfOp a = true) (hwb : wfOp b = true)
    (hna : ¬a.name = "") (hnb : ¬b.name = "") :
    isCommuting a b = isCommuting b a := by
  rw [isCommuting_eq_core a b ha hb, isCommuting_eq_core b a hb ha]
  rw [isCommutingCore_eq _ _ (name_maybeSimplify_ne_empty a hna),
      isCommutingCore_eq _ _ (name_maybeSimplify_ne_empty b hnb)]
  congr 1
  by_cases hz1 : actsAsIdentity (maybeSimplify a) = true
  · by_cases hz2 : actsAsIdentity (maybeSimplify b) = true
    · rw [if_pos hz1, if_pos hz2]
      rw [barrier_of_actsAsIdentity a hwa hz1, barrier_of_actsAsIdentity b hwb hz2]
    · rw [if_pos hz1, if_neg hz2, if_pos hz1]
  · by_cases hz2 : actsAsIdentity (maybeSimplify b) = true
    · rw [if_neg hz1, if_pos hz2, if_pos hz2]
    · rw [if_neg hz1, if_neg hz2, if_neg hz2, if_neg hz1, intersection_comm]

theorem is_commuting_symmetric_witness :
    isCommuting { name := "PauliX", wires := [0] } { name := "PauliZ", wires := [0] }
      = isCommuting { name := "PauliZ", wires := [0] } { name := "PauliX", wires := [0] } :=
  is_commuting_symmetric { name := "PauliX", wires := [0] } { name := "PauliZ", wires := [0] }
    (by decide) (by decide) (by decide) (by decide) (by decide) (by decide)

/-- C3: for every pair of supported, well-formed operations with intersecting
wire sets on which neither operand triggers the identity-parameter
short-circuit after simplification, `is_commuting` returns `False` before
the table lookup, the controlled-operation case split, or the matrix
fallback can execute: the condition `operation1.name or operation2.name in
non_commuting_operations` is truthy whenever `operation1.name` is a
non-empty string. -/
theorem overlapping_non_identity_returns_false (a b : Op)
    (ha : notSupported a = false) (hb : notSupported b = false)
    (hwa : wfOp a = true) (hwb : wfOp b = true)
    (hna : ¬a.name = "")
    (hz1 : actsAsIdentity (maybeSimplify a) = false)
    (hz2 : actsAsIdentity (maybeSimplify b) = false)
    (hint : intersection a.wires b.wires = true) :
    isCommuting a b = Except.ok false := by
  rw [isCommuting_eq_core a b ha hb,
      isCommutingCore_eq _ _ (name_maybeSimplify_ne_empty a hna)]
  rw [if_neg (by simp [hz1]), if_neg (by simp [hz2])]
  have hi : intersection (maybeSimplify a).wires (maybeSimplify b).wires = true := by
    rw [intersection_congr a.wires (maybeSimplify a).wires b.wires (maybeSimplify b).wires
      (mem_wires_maybeSimplify a hwa) (mem_wires_maybeSimplify b hwb)]
    exact hint
  rw [hi]
  rfl

theorem overlapping_non_identity_returns_false_witness :
    isCommuting { name := "PauliZ", wires := [0] } { name := "S", wires := [0] }
      = Except.ok false :=
  overlapping_non_identity_returns_false
    { name := "PauliZ", wires := [0] } { name := "S", wires := [0] }
    (by decide) (by decide) (by decide) (by decide) (by decide) (by decide) (by decide)
    (by decide)

/-- C4 counterexample: `RX(0)` on wire 0 and `Barrier` on wire 1 act on
disjoint wire sets, yet `is_commuting` returns `False`: the
identity-parameter short-circuit fires before the disjoint-wires rule and
answers `False` for a barrier partner.  The claim predicts `True` for every
disjoint pair. -/
theorem disjoint_zero_param_barrier_counterexample :
    intersection [0] [1] = false ∧
    isCommuting { name := "RX", wires := [0], data := [fZero] }
        { name := "Barrier", wires := [1] } = Except.ok false :=
  ⟨rfl, rfl⟩

/-- C4 (amended): for every pair of supported, well-formed operations on
disjoint wire sets, `is_commuting` returns `True`, except that when one
operand triggers the identity-parameter short-circuit after simplification
the result is instead decided by whether the other operand is a barrier /
no-op marker (`False` for `Barrier`/`WireCut`), because the short-circuit
runs before the disjoint-wires rule. -/
theorem disjoint_wires_decision (a b : Op)
    (ha : notSupported a = false) (hb : notSupported b = false)
    (hwa : wfOp a = true) (hwb : wfOp b = true)
    (hdisj : intersection a.wires b.wires = false) :
    isCommuting a b = Except.ok
      (if actsAsIdentity (maybeSimplify a) then
        !(barrierNames.contains (maybeSimplify b).name)
      else if actsAsIdentity (maybeSimplify b) then
        !(barrierNames.contains (maybeSimplify a).name)
      else true) := by
  rw [isCommuting_eq_core a b ha hb, isCommutingCore]
  by_cases hz1 : actsAsIdentity (maybeSimplify a) = true
  · rw [if_pos hz1, if_pos hz1]
    cases hc : barrierNames.contains (maybeSimplify b).name <;> simp [hc]
  · rw [if_neg hz1, if_neg hz1]
    by_cases hz2 : actsAsIdentity (maybeSimplify b) = true
    · rw [if_pos hz2, if_pos hz2]
      cases hc : barrierNames.contains (maybeSimplify a).name <;> simp [hc]
    · rw [if_neg hz2, if_neg hz2]
      have hi : intersection (maybeSimplify a).wires (maybeSimplify b).wires = false := by
        rw [intersection_congr a.wires (maybeSimplify a).wires b.wires (maybeSimplify b).wires
          (mem_wires_maybeSimplify a hwa) (mem_wires_maybeSimplify b hwb)]
        exact hdisj
      rw [hi]
      rfl

theorem disjoint_wires_decision_witness :
    isCommuting { name := "RX", wires := [0], data := [fZero] }
        { name := "Barrier", wires := [1] }
      = Except.ok
        (if actsAsIdentity (maybeSimplify { name := "RX", wires := [0], data := [fZero] }) then
          !(barrierNames.contains (maybeSimplify { name := "Barrier", wires := [1] }).name)
        else if actsAsIdentity (maybeSimplify { name := "Barrier", wires := [1] }) then
          !(barrierNames.contains (maybeSimplify { name := "RX", wires := [0], data := [fZero] }).name)
        else true) :=
  disjoint_wires_decision { name := "RX", wires := [0], data := [fZero] }
    { name := "Barrier", wires := [1] }
    (by decide) (by decide) (by decide) (by decide) (by decide)

/-- C7 counterexample: `U2(0, 0)` on wire 0 has a non-empty parameter list
with every parameter congruent to 0 mod 2 pi, shares its wire with the
non-barrier operation `PauliX(0)`, yet `is_commuting` returns `False`: the
`U2` is first simplified to `RY(pi/2)`, which does not act as the identity.
The claim predicts `True`. -/
theorem u2_zero_parameters_counterexample :
    ({ name := "U2", wires := [0], data := [fZero, fZero] } : Op).data.isEmpty = false ∧
    ({ name := "U2", wires := [0], data := [fZero, fZero] } : Op).data.all
      (fun x => pmod x fTwo == fZero) = true ∧
    intersection [0] [0] = true ∧
    barrierNames.contains "PauliX" = false ∧
    isCommuting { name := "U2", wires := [0], data := [fZero, fZero] }
        { name := "PauliX", wires := [0] } = Except.ok false :=
  ⟨rfl, rfl, rfl, rfl, rfl⟩

/-- C7 (amended): for every supported operation `r` that still triggers the
identity-parameter short-circuit after U2/U3/Rot/CRot simplification (a
non-empty parameter list, not a `U2`, all parameters congruent to 0 mod
2 pi) and every supported operation `b` sharing at least one wire with `r`,
`is_commuting(r, b)` returns `True` when the simplified `b` is not a
barrier / no-op marker and `False` when it is. -/
theorem identity_short_circuit_decision (r b : Op)
    (hr : notSupported r = false) (hb : notSupported b = false)
    (hz : actsAsIdentity (maybeSimplify r) = true)
    (hshare : intersection r.wires b.wires = true) :
    isCommuting r b = Except.ok (!(barrierNames.contains (maybeSimplify b).name)) := by
  rw [isCommuting_eq_core r b hr hb, isCommutingCore, if_pos hz]
  cases hc : barrierNames.contains (maybeSimplify b).name <;> simp [hc]

theorem identity_short_circuit_decision_witness :
    isCommuting { name := "RX", wires := [0], data := [fZero] }
        { name := "PauliX", wires := [0] }
      = Except.ok (!(barrierNames.contains
          (maybeSimplify { name := "PauliX", wires := [0] }).name)) :=
  identity_short_circuit_decision { name := "RX", wires := [0], data := [fZero] }
    { name := "PauliX", wires := [0] } (by decide) (by decide) (by decide) (by decide)

/-- C2: the commutation table entry for `(PauliZ, S)` is `1` (True), but
`is_commuting(PauliZ(0), S(0))` returns `False`: the precedence bug
`operation1.name or operation2.name in non_commuting_operations` returns
`False` for any named operand before the table lookup
`commutation_map[op1.name][position[op2.name]]` can execute. -/
theorem table_lookup_unreachable_pauliZ_S :
    commutationEntry "PauliZ" "S" = Except.ok true ∧
    isCommuting { name := "PauliZ", wires := [0] } { name := "S", wires := [0] }
      = Except.ok false :=
  ⟨rfl, rfl⟩

/-- C6: the fixed commutation lookup table is not symmetric: the `SX` row
disagrees with the `SX` column, in particular
`commutation_map["SX"][position["RZ"]] = 1` while
`commutation_map["RZ"][position["SX"]] = 0`, and
`commutation_map["RX"][position["SX"]] = 1` while
`commutation_map["SX"][position["RX"]] = 0`. -/
theorem commutation_map_asymmetric_at_SX :
    commutationEntry "SX" "RZ" = Except.ok true ∧
    commutationEntry "RZ" "SX" = Except.ok false ∧
    commutationEntry "RX" "SX" = Except.ok true ∧
    commutationEntry "SX" "RX" = Except.ok false :=
  ⟨rfl, rfl, rfl, rfl⟩

/-- C9: the deny list misses a comma after `"ArbitraryUnitary"`, so neither
`"ArbitraryUnitary"` nor `"CommutingEvolution"` is in it (the concatenated
string `"ArbitraryUnitaryCommutingEvolution"` is): `is_commuting` on an
`ArbitraryUnitary` operand does not raise and instead returns a boolean,
while a genuinely listed kind such as `PauliRot` raises the explicit error
naming the operation. -/
theorem deny_list_missing_comma :
    not_supported_operations.contains "ArbitraryUnitary" = false ∧
    not_supported_operations.contains "CommutingEvolution" = false ∧
    not_supported_operations.contains "ArbitraryUnitaryCommutingEvolution" = true ∧
    isCommuting { name := "ArbitraryUnitary", wires := [0], data := [fOne] }
        { name := "PauliX", wires := [0] } = Except.ok false ∧
    isCommuting { name := "PauliRot", wires := [0], data := [fOne] }
        { name := "PauliX", wires := [0] }
      = Except.error "Operation PauliRot not supported." :=
  ⟨rfl, rfl, rfl, rfl, rfl⟩

/-- C1: for every sequence of supported operations inserted in order via
`add_node`, and every node `j` of the resulting DAG, the transitive-closure
predecessor set computed over the incrementally built, reachability-pruned
edge set (`predecessors(j)`, i.e. the ancestors of `j` in the multigraph)
coincides with the transitive-closure predecessor set of the brute-force
graph that has a direct edge `i -> j` for every pair `i < j` with
`is_commuting(op_i, op_j)` false. -/
theorem dag_predecessors_equiv_bruteforce (ops : List Op)
    (hsupp : ∀ op ∈ ops, notSupported op = false)
    (j : Nat) (hj : j < ops.length) (i : Nat) :
    Relation.TransGen (dagEdge (opsOracle ops)) i j ↔
      Relation.TransGen (bruteEdge (opsOracle ops)) i j :=
  transGen_dagEdge_iff_bruteEdge (opsOracle ops) j i

theorem dag_predecessors_equiv_bruteforce_witness :
    Relation.TransGen
        (dagEdge (opsOracle [{ name := "PauliX", wires := [0] },
          { name := "PauliZ", wires := [0] }])) 0 1 ↔
      Relation.TransGen
        (bruteEdge (opsOracle [{ name := "PauliX", wires := [0] },
          { name := "PauliZ", wires := [0] }])) 0 1 :=
  dag_predecessors_equiv_bruteforce
    [{ name := "PauliX", wires := [0] }, { name := "PauliZ", wires := [0] }]
    (by decide) 1 (by decide) 0

theorem mem_dagEdgesUpTo (f : Nat → Nat → Bool) (k i j : Nat) :
    (i, j) ∈ dagEdgesUpTo f k ↔ j < k ∧ i ∈ nodeDirPreds f j := by
  rw [dagEdgesUpTo]
  simp only [List.mem_flatten, List.mem_map, List.mem_range]
  constructor
  · rintro ⟨l, ⟨m, hm, rfl⟩, hmem⟩
    simp only [List.mem_map, Prod.mk.injEq] at hmem
    obtain ⟨p, hp, rfl, rfl⟩ := hmem
    exact ⟨hm, hp⟩
  · rintro ⟨hjk, hij⟩
    exact ⟨(nodeDirPreds f j).map (fun p => (p, j)), ⟨j, hjk, rfl⟩,
      List.mem_map.mpr ⟨i, hij, rfl⟩⟩

theorem transGen_dagEdge_lt (f : Nat → Nat → Bool) {i j : Nat}
    (h : Relation.TransGen (dagEdge f) i j) : i < j := by
  induction h with
  | single h1 => exact (nodeDirPreds_spec f _ _ h1).1
  | tail _ h2 ih => exact Nat.lt_trans ih (nodeDirPreds_spec f _ _ h2).1

/-- C8: every edge ever added to the commutation DAG, after any number of
`add_node` calls, points from a strictly lower node id to a strictly higher
node id, and consequently the edge relation of the multigraph contains no
cycle. -/
theorem dag_edges_lower_to_higher (ops : List Op) (k i j : Nat)
    (hmem : (i, j) ∈ dagEdgesUpTo (opsOracle ops) k) :
    i < j ∧ ∀ a, ¬Relation.TransGen (dagEdge (opsOracle ops)) a a := by
  refine ⟨?_, ?_⟩
  · exact (nodeDirPreds_spec (opsOracle ops) j i
      ((mem_dagEdgesUpTo (opsOracle ops) k i j).mp hmem).2).1
  · intro a h
    exact Nat.lt_irrefl a (transGen_dagEdge_lt (opsOracle ops) h)

theorem dag_edges_lower_to_higher_witness :
    0 < 1 ∧ ∀ a, ¬Relation.TransGen
      (dagEdge (opsOracle [{ name := "PauliX", wires := [0] },
        { name := "PauliZ", wires := [0] }])) a a :=
  dag_edges_lower_to_higher
    [{ name := "PauliX", wires := [0] }, { name := "PauliZ", wires := [0] }]
    2 0 1 (by decide)

theorem map_id_of_mem {α : Type} (f : α → α) :
    ∀ l : List α, (∀ a ∈ l, f a = a) → l.map f = l := by
  intro l
  induction l with
  | nil => intro _; rfl
  | cons a t ih =>
    intro h
    rw [List.map_cons, h a (List.mem_cons_self a t),
      ih (fun x hx => h x (List.mem_cons_of_mem a hx))]

theorem getD_indexOf {α : Type} [DecidableEq α] (dflt w : α) :
    ∀ ws : List α, w ∈ ws → ws.getD (ws.indexOf w) dflt = w := by
  intro ws
  induction ws with
  | nil => intro h; cases h
  | cons a t ih =>
    intro hw
    by_cases h : w = a
    · subst h
      simp [List.indexOf_cons_self]
    · have hne : (a == w) = false := by simp [Ne.symm h]
      have hidx : (a :: t).indexOf w = (t.indexOf w) + 1 := by
        simp [List.indexOf_cons, hne]
      rw [hidx]
      simp only [List.getD_cons_succ]
      exact ih (by rcases List.mem_cons.mp hw with h2 | h2; exact absurd h2 h; exact h2)

/-- C10: the wrapper wire relabeling is a pure, reversible presentation
step: for a tape whose wire list has distinct labels covering every
operation's wires, mapping the dense integer labels back through the tape's
wire list recovers every operation (and observable) exactly as it was, and
the relabeling changes nothing but the wires (names and parameters are left
untouched). -/
theorem wire_relabeling_reversible {α : Type} [DecidableEq α] (ws : List α) (dflt : α)
    (ops : List (TapeOp α)) (hnd : ws.Nodup)
    (hcov : ∀ op ∈ ops, ∀ w ∈ op.wires, w ∈ ws) :
    (relabelTape ws ops).map (restoreOp ws dflt) = ops ∧
    ∀ op ∈ ops, (relabelOp ws op).name = op.name ∧ (relabelOp ws op).data = op.data := by
  constructor
  · rw [relabelTape, List.map_map]
    apply map_id_of_mem
    intro op hop
    show restoreOp ws dflt (relabelOp ws op) = op
    obtain ⟨nm, opw, dt⟩ := op
    simp only [restoreOp, relabelOp, List.map_map, TapeOp.mk.injEq]
    refine ⟨trivial, ?_, trivial⟩
    apply map_id_of_mem
    intro w hw
    show ws.getD (ws.indexOf w) dflt = w
    exact getD_indexOf dflt w ws (hcov ⟨nm, opw, dt⟩ hop w hw)
  · intro op hop
    exact ⟨rfl, rfl⟩

theorem wire_relabeling_reversible_witness :
    ((relabelTape ["a", "b"]
        [({ name := "PauliX", wires := ["b"] } : TapeOp String)]).map
      (restoreOp ["a", "b"] "a")
        = [({ name := "PauliX", wires := ["b"] } : TapeOp String)]) ∧
    ∀ op ∈ [({ name := "PauliX", wires := ["b"] } : TapeOp String)],
      (relabelOp ["a", "b"] op).name = op.name ∧ (relabelOp ["a", "b"] op).data = op.data :=
  wire_relabeling_reversible ["a", "b"] "a"
    [{ name := "PauliX", wires := ["b"] }] (by decide) (by decide)
